import Mathlib

/-!
Verification development for the 10th Man Protocol MCP core
(agent resolver, backend invoker, response normalizer, consensus engine).

The TypeScript source is shallowly embedded: pure functions become Lean
functions, JS numbers are modelled as exact rationals (`ℚ`), fallible
operations return `Option`/`Except`, and the JS builtins `JSON.parse` /
`JSON.stringify` / `String(·)` — which are external to the repository —
are modelled as an oracle parameter resp. explicit Lean renderings.
-/

/-- The three-valued decision, `'proceed' | 'proceed_with_changes' | 'block'`. -/
inductive Verdict where
  | proceed
  | proceed_with_changes
  | block
deriving DecidableEq

/-- Execution status of a verdict: `'completed' | 'timeout' | 'error'`. -/
inductive AgentStatus where
  | completed
  | timeout
  | error
deriving DecidableEq

/-- The fixed reviewer roles. -/
inductive AgentRole where
  | devils_advocate
  | architecture_critic
  | pragmatist
deriving DecidableEq

/-- Backend engines. -/
inductive Engine where
  | codex
  | gemini
  | claude
deriving DecidableEq

/-- Invocation mode: `'subprocess' | 'subagent_prompt'`. -/
inductive Via where
  | subprocess
  | subagent_prompt
deriving DecidableEq

/-- External CLI backends that can be detected (`Set<'codex' | 'gemini'>`). -/
inductive ExternalAgent where
  | codex
  | gemini
deriving DecidableEq

/-- JSON values (the shape of parsed agent output). -/
inductive Json where
  | null
  | bool (b : Bool)
  | num (q : ℚ)
  | str (s : String)
  | arr (elems : List Json)
  | obj (fields : List (String × Json))

/-- Property access on a parsed payload: `payload[key]`, `none` when absent
or when the payload is not an object. -/
def getField (j : Json) (key : String) : Option Json :=
  match j with
  | .obj fields => fields.lookup key
  | _ => none

/-- Runtime configuration (the fields of `RuntimeConfig` the core reads:
the availability set as its membership test, and the timeout budget). -/
structure RuntimeConfig where
  available_agents : ExternalAgent → Bool
  timeout_seconds : ℕ
  repo_root : String

/-- One role-to-backend assignment produced by the resolver. -/
structure AgentAssignment where
  role : AgentRole
  engine : Engine
  model : String
  via : Via
deriving DecidableEq

/-- The uniform verdict record produced per process-backed assignment. -/
structure AgentVerdict where
  role : AgentRole
  engine : Engine
  model : String
  verdict : Verdict
  confidence : ℚ
  raw_output : Option Json
  duration_ms : ℕ
  status : AgentStatus
  error : Option String

/-- The consensus object handed to the caller. -/
structure Consensus where
  verdict : Verdict
  confidence : ℚ
  critical_issues : List String
  recommendations : List String

/-- Spawn instruction returned for delegated (Claude subagent) assignments. -/
structure SubagentSpawnInstruction where
  role : AgentRole
  model : String
  prompt : String
  tools : List String

/-- Modelled from the spec: the `MODELS` table of `types.ts` is not in the
sources; the model identifiers are taken from the README's Models line. -/
def MODELS (e : Engine) : String :=
  match e with
  | .codex => "gpt-5.3-codex"
  | .gemini => "gemini-3-pro-preview"
  | .claude => "claude-opus-4-6"

/-- JavaScript `Math.round`: round half toward positive infinity. -/
def jsRound (q : ℚ) : ℤ := ⌊q + 1/2⌋

/-- `resolveAgents` — assign each contrarian role a backend, by the priority
cascade on which external CLIs are available (agent-resolver source). -/
def resolveAgents (config : RuntimeConfig) : List AgentAssignment :=
  let hasCodex := config.available_agents ExternalAgent.codex
  let hasGemini := config.available_agents ExternalAgent.gemini
  if hasCodex && hasGemini then
    [ { role := .devils_advocate, engine := .codex, model := MODELS .codex, via := .subprocess },
      { role := .architecture_critic, engine := .gemini, model := MODELS .gemini, via := .subprocess },
      { role := .pragmatist, engine := .claude, model := MODELS .claude, via := .subagent_prompt } ]
  else if hasCodex then
    [ { role := .devils_advocate, engine := .codex, model := MODELS .codex, via := .subprocess },
      { role := .architecture_critic, engine := .claude, model := MODELS .claude, via := .subagent_prompt },
      { role := .pragmatist, engine := .claude, model := MODELS .claude, via := .subagent_prompt } ]
  else if hasGemini then
    [ { role := .devils_advocate, engine := .gemini, model := MODELS .gemini, via := .subprocess },
      { role := .architecture_critic, engine := .claude, model := MODELS .claude, via := .subagent_prompt },
      { role := .pragmatist, engine := .claude, model := MODELS .claude, via := .subagent_prompt } ]
  else
    [ { role := .devils_advocate, engine := .claude, model := MODELS .claude, via := .subagent_prompt },
      { role := .architecture_critic, engine := .claude, model := MODELS .claude, via := .subagent_prompt },
      { role := .pragmatist, engine := .claude, model := MODELS .claude, via := .subagent_prompt } ]

/-- The `trim()` of the source, on the character list: drop leading and
trailing whitespace. -/
def trimList (cs : List Char) : List Char :=
  ((cs.dropWhile Char.isWhitespace).reverse.dropWhile Char.isWhitespace).reverse

/-- The backtick character of a markdown code fence (code point 96). -/
def fenceChar : Char := Char.ofNat 96

/-- The leading-fence replacement regex of the source, applied to the trimmed
text: strip one leading code-fence marker (optionally tagged `json`,
case-insensitive) together with the whitespace that follows it. -/
def stripLeadFence (cs : List Char) : List Char :=
  match cs with
  | a :: b :: c :: rest =>
    if a = fenceChar ∧ b = fenceChar ∧ c = fenceChar then
      let rest := if (rest.take 4).map Char.toLower = ['j', 's', 'o', 'n']
        then rest.drop 4 else rest
      rest.dropWhile Char.isWhitespace
    else cs
  | _ => cs

/-- The trailing-fence replacement regex of the source: strip one trailing
code-fence marker and the whitespace around it, when present at the end. -/
def stripTrailFence (cs : List Char) : List Char :=
  match cs.reverse.dropWhile Char.isWhitespace with
  | a :: b :: c :: rest =>
    if a = fenceChar ∧ b = fenceChar ∧ c = fenceChar then
      (rest.dropWhile Char.isWhitespace).reverse
    else cs
  | _ => cs

/-- The `cleaned` text of `parseAgentOutput`: trim, strip a single
leading/trailing code-fence marker, trim again. -/
def cleanOutput (output : String) : String :=
  String.mk (trimList (stripTrailFence (stripLeadFence (trimList output.toList))))

/-- The regex search `cleaned.match(curly-brace greedy pattern)`: the greedy
match spans from the first opening brace to the last closing brace of the
whole text (no balancing), `none` when no such span exists. -/
def braceSpan (s : String) : Option String :=
  let cs := s.toList
  match cs.findIdx? (fun c => c == '{'), cs.reverse.findIdx? (fun c => c == '}') with
  | some i, some rj =>
    let j := cs.length - 1 - rj
    if i < j then some (String.mk ((cs.drop i).take (j - i + 1))) else none
  | _, _ => none

/-- Modelled from the spec: the `ROLE_LABELS` table of `types.ts` is not in
the sources; the human-readable labels are taken from the README's roles
table. -/
def roleLabel (role : AgentRole) : String :=
  match role with
  | .devils_advocate => "Devil's Advocate"
  | .architecture_critic => "Architecture Critic"
  | .pragmatist => "Pragmatist"

/-- The synthesized payload of `parseAgentOutput`'s unparseable branch:
default verdict, confidence 0.4, and the raw text truncated to 500
characters wrapped into the reasoning note. -/
def fallbackPayload (role : AgentRole) (output : String) : Json :=
  .obj
    [ ("verdict", .str "proceed_with_changes"),
      ("confidence", .num 0.4),
      ("reasoning", .str ("[" ++ roleLabel role ++ "] Raw output (could not parse as JSON): "
        ++ String.mk (output.toList.take 500))),
      ("critical_issues", .arr []),
      ("recommendations", .arr []) ]

/-- `parseAgentOutput` — parse agent output, handling JSON with or without
markdown fences.  `jsonParse` is the oracle modelling the JS builtin
`JSON.parse` (`none` models a thrown `SyntaxError`); each `try/catch` of the
source is an explicit `match` on the oracle's result. -/
def parseAgentOutput (jsonParse : String → Option Json)
    (output : String) (role : AgentRole) : Json :=
  let cleaned := cleanOutput output
  match jsonParse cleaned with
  | some parsed => parsed
  | none =>
    match braceSpan cleaned with
    | some sub =>
      match jsonParse sub with
      | some parsed => parsed
      | none => fallbackPayload role output
    | none => fallbackPayload role output

/-- The membership test `VALID_VERDICTS.has(v)` for `isVerdict`. -/
def isVerdictStr (s : String) : Bool :=
  s == "proceed" || s == "proceed_with_changes" || s == "block"

/-- Field extraction of `invokeExternal`:
`isVerdict(parsed.verdict) ? parsed.verdict : 'proceed_with_changes'`. -/
def extractVerdict (parsed : Json) : Verdict :=
  match getField parsed "verdict" with
  | some (.str s) =>
    if s = "proceed" then .proceed
    else if s = "proceed_with_changes" then .proceed_with_changes
    else if s = "block" then .block
    else .proceed_with_changes
  | _ => .proceed_with_changes

/-- Field extraction of `invokeExternal`:
`typeof parsed.confidence === 'number' ? parsed.confidence : 0.5`. -/
def extractConfidence (parsed : Json) : ℚ :=
  match getField parsed "confidence" with
  | some (.num q) => q
  | _ => 0.5

/-- Escape one character for a JSON string literal. -/
def escapeJsonChar (c : Char) : String :=
  if c = '"' then "\\\""
  else if c = '\\' then "\\\\"
  else if c = '\n' then "\\n"
  else if c = '\t' then "\\t"
  else if c = '\r' then "\\r"
  else String.singleton c

/-- Escape a string for a JSON string literal. -/
def escapeJsonString (s : String) : String :=
  s.toList.foldl (fun acc c => acc ++ escapeJsonChar c) ""

/-- Modelled rendering of the JS builtin `JSON.stringify` on parsed values
(numbers rendered as exact rationals, common control characters escaped). -/
def jsonStringify : Json → String
  | .null => "null"
  | .bool true => "true"
  | .bool false => "false"
  | .num q => toString q
  | .str s => "\"" ++ escapeJsonString s ++ "\""
  | .arr elems =>
    "[" ++ String.intercalate "," (elems.attach.map (fun e => jsonStringify e.1)) ++ "]"
  | .obj fields =>
    "\x7b" ++ String.intercalate ","
      (fields.attach.map (fun f => "\"" ++ escapeJsonString f.1.1 ++ "\":" ++ jsonStringify f.1.2))
      ++ "\x7d"
decreasing_by
  · have := List.sizeOf_lt_of_mem e.2
    simp only [Json.arr.sizeOf_spec]
    omega
  · have := List.sizeOf_lt_of_mem f.2
    have h2 : sizeOf f.1.2 < sizeOf f.1 := by
      obtain ⟨a, b⟩ := f.1
      simp only [Prod.mk.sizeOf_spec]
      omega
    simp only [Json.obj.sizeOf_spec]
    omega

/-- Modelled rendering of the JS builtin `String(x)` on parsed values
(arrays join their elements with commas, objects render as
`[object Object]`). -/
def jsToString : Json → String
  | .null => "null"
  | .bool true => "true"
  | .bool false => "false"
  | .num q => toString q
  | .str s => s
  | .arr elems =>
    String.intercalate "," (elems.attach.map (fun e => jsToString e.1))
  | .obj _ => "[object Object]"
decreasing_by
  have := List.sizeOf_lt_of_mem e.2
  simp only [Json.arr.sizeOf_spec]
  omega

/-- Nullish field access `obj.key` as used with the `??` operator: both a
missing field and an explicit `null` count as absent. -/
def nullishField (j : Json) (key : String) : Option Json :=
  match getField j key with
  | some .null => none
  | o => o

/-- The JS test `typeof x === 'object'` for a non-null parsed value
(objects and arrays). -/
def isJsObject (j : Json) : Bool :=
  match j with
  | .obj _ => true
  | .arr _ => true
  | _ => false

/-- The title of an object-shaped issue:
`obj.title ?? obj.description ?? JSON.stringify(issue)`, pushed through
`String(·)`. -/
def issueTitle (issue : Json) : String :=
  match nullishField issue "title" with
  | some t => jsToString t
  | none =>
    match nullishField issue "description" with
    | some d => jsToString d
    | none => jsonStringify issue

/-- The inner loop over `output.critical_issues` (or `recommendations`):
strings are pushed as-is, non-null objects via their title, other values
are skipped. -/
def stringOrTitleStrings (elems : List Json) : List String :=
  elems.foldr
    (fun issue acc =>
      match issue with
      | .str s => s :: acc
      | .obj _ => issueTitle issue :: acc
      | .arr _ => issueTitle issue :: acc
      | _ => acc)
    []

/-- The inner loop over `output.structural_issues`: only non-null
object-typed entries are pushed, via their title. -/
def structuralIssueStrings (elems : List Json) : List String :=
  elems.foldr
    (fun issue acc =>
      match issue with
      | .obj _ => issueTitle issue :: acc
      | .arr _ => issueTitle issue :: acc
      | _ => acc)
    []

/-- The inner loop over `output.phasing_suggestion`: for non-null
object-typed entries, the template string built from `obj.phase` and
`obj.title ?? obj.scope` (JS renders a missing field as `undefined`). -/
def phasingStrings (elems : List Json) : List String :=
  elems.foldr
    (fun phase acc =>
      match phase with
      | .obj _ =>
        ("Phase "
          ++ (match getField phase "phase" with
              | some p => jsToString p
              | none => "undefined")
          ++ ": "
          ++ (match nullishField phase "title" with
              | some t => jsToString t
              | none =>
                match getField phase "scope" with
                | some s => jsToString s
                | none => "undefined")) :: acc
      | .arr _ =>
        ("Phase "
          ++ (match getField phase "phase" with
              | some p => jsToString p
              | none => "undefined")
          ++ ": "
          ++ (match nullishField phase "title" with
              | some t => jsToString t
              | none =>
                match getField phase "scope" with
                | some s => jsToString s
                | none => "undefined")) :: acc
      | _ => acc)
    []

/-- Deduplication by `[...new Set(xs)]`: keep the first occurrence of each
string, preserving first-seen order. -/
def dedupFirst (l : List String) : List String :=
  l.foldl (fun acc s => if acc.contains s then acc else acc ++ [s]) []

/-- `extractCriticalIssues` — collect critical/structural issue strings from
every verdict's raw payload, then deduplicate. -/
def extractCriticalIssues (verdicts : List AgentVerdict) : List String :=
  dedupFirst (verdicts.flatMap (fun v =>
    match v.raw_output with
    | some output =>
      if isJsObject output then
        (match getField output "critical_issues" with
         | some (.arr elems) => stringOrTitleStrings elems
         | _ => [])
        ++
        (match getField output "structural_issues" with
         | some (.arr elems) => structuralIssueStrings elems
         | _ => [])
      else []
    | none => []))

/-- `extractRecommendations` — collect recommendation and phasing strings
from every verdict's raw payload, then deduplicate. -/
def extractRecommendations (verdicts : List AgentVerdict) : List String :=
  dedupFirst (verdicts.flatMap (fun v =>
    match v.raw_output with
    | some output =>
      if isJsObject output then
        (match getField output "recommendations" with
         | some (.arr elems) => stringOrTitleStrings elems
         | _ => [])
        ++
        (match getField output "phasing_suggestion" with
         | some (.arr elems) => phasingStrings elems
         | _ => [])
      else []
    | none => []))

/-- `computeConsensus` — combine the agent verdicts into one consensus
(result-merger source): degraded result when nothing completed, the ordered
decision rule on the completed tallies, and the rounded weighted-confidence
computation as written (the weight term iterates over the `completed`
filtrate). -/
def computeConsensus (verdicts : List AgentVerdict) : Consensus :=
  let completed := verdicts.filter (fun v => decide (v.status = .completed))
  if completed.length = 0 then
    { verdict := .proceed_with_changes,
      confidence := 0.2,
      critical_issues := ["All agents failed or timed out — proceed with extreme caution"],
      recommendations := ["Re-run the protocol or manually review the changes"] }
  else
    let blockCount := (completed.filter (fun v => decide (v.verdict = .block))).length
    let pwcCount :=
      (completed.filter (fun v => decide (v.verdict = .proceed_with_changes))).length
    let verdict : Verdict :=
      if 2 ≤ blockCount then .block
      else if blockCount = 1 ∧ 1 ≤ pwcCount then .proceed_with_changes
      else if blockCount = 1 then .proceed_with_changes
      else if 1 ≤ pwcCount then .proceed_with_changes
      else .proceed
    let totalWeight : ℚ := completed.foldl
      (fun acc v => acc + (if v.status = .completed then (1 : ℚ) else 0.3)) 0
    let weightedConfidence : ℚ := completed.foldl
      (fun acc v => acc + v.confidence * (if v.status = .completed then (1 : ℚ) else 0.3)) 0
    let confidence : ℚ :=
      if 0 < totalWeight then (jsRound ((weightedConfidence / totalWeight) * 100) : ℚ) / 100
      else 0.5
    { verdict := verdict,
      confidence := confidence,
      critical_issues := extractCriticalIssues verdicts,
      recommendations := extractRecommendations verdicts }

/-- The review input consumed by the core (string fields are opaque). -/
structure ReviewInput where
  task_description : String
  proposed_changes : String
  affected_files : List String
  context_files : Option (List String)

/-- The outcome of one subprocess execution, as observed through the
`try/catch` of `invokeExternal`: normal completion with the captured stdout,
a timeout kill (`error.killed`), or any other execution failure with its
message. -/
inductive ExecOutcome where
  | success (stdout : String)
  | timedOut
  | failed (msg : String)

/-- Engine tag rendered into error messages. -/
def engineName (e : Engine) : String :=
  match e with
  | .codex => "codex"
  | .gemini => "gemini"
  | .claude => "claude"

/-- `invokeExternal` — invoke an external CLI agent as a subprocess.  The
process behavior is the `outcome`/`duration` environment; the unsupported
engine branch throws before the `try` block, so the embedding returns
`Except` (the `catch` inside the function maps a timeout or execution
failure to a synthesized verdict, never to an error). -/
def invokeExternal (jsonParse : String → Option Json) (assignment : AgentAssignment)
    (config : RuntimeConfig) (outcome : ExecOutcome) (duration : ℕ) :
    Except String AgentVerdict :=
  match assignment.engine with
  | .claude => .error ("Unsupported external engine: " ++ engineName assignment.engine)
  | _ =>
    match outcome with
    | .success stdout =>
      let parsed := parseAgentOutput jsonParse stdout assignment.role
      .ok
        { role := assignment.role, engine := assignment.engine, model := assignment.model,
          verdict := extractVerdict parsed, confidence := extractConfidence parsed,
          raw_output := some parsed, duration_ms := duration, status := .completed,
          error := none }
    | .timedOut =>
      .ok
        { role := assignment.role, engine := assignment.engine, model := assignment.model,
          verdict := .proceed_with_changes, confidence := 0.3, raw_output := none,
          duration_ms := duration, status := .timeout,
          error := some ("Agent timed out after " ++ toString config.timeout_seconds ++ "s") }
    | .failed msg =>
      .ok
        { role := assignment.role, engine := assignment.engine, model := assignment.model,
          verdict := .proceed_with_changes, confidence := 0.3, raw_output := none,
          duration_ms := duration, status := .error,
          error := some ("Agent failed: " ++ msg) }

/-- `buildSubagentInstruction` — build a spawn instruction for a delegated
Claude subagent; `buildP` is the prompt-construction collaborator
(`buildPrompt` of the prompt-builder module). -/
def buildSubagentInstruction (buildP : AgentRole → ReviewInput → String)
    (assignment : AgentAssignment) (input : ReviewInput) : SubagentSpawnInstruction :=
  { role := assignment.role,
    model := "opus",
    prompt := buildP assignment.role input,
    tools := ["Read", "Glob", "Grep"] }

/-- `executeAgents` — run every subprocess assignment (each against its own
independent outcome, the `Promise.allSettled` join) and build spawn
instructions for the delegated ones.  The `.error` branch is the
settled-rejection safety net of the source. -/
def executeAgents (jsonParse : String → Option Json)
    (buildP : AgentRole → ReviewInput → String)
    (assignments : List AgentAssignment) (input : ReviewInput) (config : RuntimeConfig)
    (run : AgentAssignment → ExecOutcome) (duration : AgentAssignment → ℕ) :
    List AgentVerdict × List SubagentSpawnInstruction :=
  let externalAssignments := assignments.filter (fun a => decide (a.via = .subprocess))
  let claudeAssignments := assignments.filter (fun a => decide (a.via = .subagent_prompt))
  let verdicts := externalAssignments.map (fun a =>
    match invokeExternal jsonParse a config (run a) (duration a) with
    | .ok v => v
    | .error reason =>
      { role := a.role, engine := a.engine, model := a.model,
        verdict := .proceed_with_changes, confidence := 0.3, raw_output := none,
        duration_ms := 0, status := .error,
        error := some ("Unexpected failure: " ++ reason) })
  (verdicts, claudeAssignments.map (fun a => buildSubagentInstruction buildP a input))

/-- Stated from the spec, for comparison with the source: the ordered
consensus decision rule on the completed tallies (2 or more block, exactly
one block, any proceed-with-changes, otherwise proceed). -/
def specDecision (blockCount pwcCount : ℕ) : Verdict :=
  if 2 ≤ blockCount then .block
  else if blockCount = 1 then .proceed_with_changes
  else if 1 ≤ pwcCount then .proceed_with_changes
  else .proceed

/-- Stated from the spec, for comparison with the source: the confidence as
the weighted mean over EVERY input verdict, weight 1 for completed and 0.3
for any other status, rounded to 2 decimals, 0.5 when the total weight is
zero. -/
def specConfidence (verdicts : List AgentVerdict) : ℚ :=
  let totalWeight : ℚ := verdicts.foldl
    (fun acc v => acc + (if v.status = .completed then (1 : ℚ) else 0.3)) 0
  let weightedConfidence : ℚ := verdicts.foldl
    (fun acc v => acc + v.confidence * (if v.status = .completed then (1 : ℚ) else 0.3)) 0
  if 0 < totalWeight then (jsRound ((weightedConfidence / totalWeight) * 100) : ℚ) / 100
  else 0.5

/-- Helper for `firstBalancedBraces`: scan forward from inside a brace
group at the given depth, returning the consumed prefix once the group
closes. -/
def scanBalanced : List Char → ℕ → List Char → Option (List Char)
  | [], _, _ => none
  | c :: rest, depth, acc =>
    if c == '{' then scanBalanced rest (depth + 1) (acc ++ [c])
    else if c == '}' then
      if depth = 1 then some (acc ++ [c])
      else scanBalanced rest (depth - 1) (acc ++ [c])
    else scanBalanced rest depth (acc ++ [c])

/-- Helper for `firstBalancedBraces`: try each opening brace in turn. -/
def firstBalancedAux : List Char → Option (List Char)
  | [] => none
  | c :: rest =>
    if c == '{' then
      match scanBalanced rest 1 [c] with
      | some r => some r
      | none => firstBalancedAux rest
    else firstBalancedAux rest

/-- Stated from the spec, for comparison with the source: the first
balanced brace-delimited substring of a text. -/
def firstBalancedBraces (s : String) : Option String :=
  (firstBalancedAux s.toList).map String.mk

/-- Sample verdict record used by concrete witnesses. -/
def sampleVerdict (st : AgentStatus) (c : ℚ) (vd : Verdict) : AgentVerdict :=
  { role := .devils_advocate, engine := .codex, model := "gpt-5.3-codex",
    verdict := vd, confidence := c, raw_output := none, duration_ms := 0,
    status := st, error := none }

/-- Sample configuration with both external CLIs available. -/
def cfgBoth : RuntimeConfig :=
  { available_agents := fun _ => true, timeout_seconds := 180, repo_root := "/repo" }

/-- Sample configuration with both external CLIs available and a different
timeout budget. -/
def cfgBothSlow : RuntimeConfig :=
  { available_agents := fun _ => true, timeout_seconds := 240, repo_root := "/repo" }

/-- The codex assignment for the failure-finder role. -/
def daCodex : AgentAssignment :=
  { role := .devils_advocate, engine := .codex, model := MODELS .codex, via := .subprocess }

/-- Sample review input used by concrete witnesses. -/
def sampleInput : ReviewInput :=
  { task_description := "t", proposed_changes := "c", affected_files := [],
    context_files := none }

/-- A parse oracle on which every parse attempt fails. -/
def pNone : String → Option Json := fun _ => none

/-- A parse oracle agreeing with `JSON.parse` on the inputs of the stage-two
counterexample: only the balanced object text parses. -/
def pEx : String → Option Json :=
  fun t => if t = "\x7b\"a\": 1\x7d" then some (.obj [("a", .num 1)]) else none

/-- The raw text of the stage-two counterexample: prose, then a well-formed
JSON object, then trailing junk that ends in a stray closing brace. -/
def sEx : String := "x \x7b\"a\": 1\x7d junk \x7d"

/-- Helper: folding `acc + f v` over a list sums `f` over the list. -/
theorem foldl_add_eq_sum (f : AgentVerdict → ℚ) (l : List AgentVerdict) :
    ∀ a : ℚ, l.foldl (fun acc v => acc + f v) a = a + (l.map f).sum := by
  induction l with
  | nil => intro a; simp
  | cons v t ih =>
    intro a
    simp only [List.foldl_cons, List.map_cons, List.sum_cons, ih]
    ring

/-- Helper: a constant-one map sums to the length. -/
theorem sum_map_ones (l : List AgentVerdict) :
    (l.map (fun _ => (1 : ℚ))).sum = l.length := by
  induction l with
  | nil => simp
  | cons v t ih => simp [ih]; ring

/-- Helper: every member of the completed filtrate has completed status. -/
theorem status_of_mem_completed (vs : List AgentVerdict) (v : AgentVerdict)
    (hv : v ∈ vs.filter (fun v => decide (v.status = .completed))) :
    v.status = .completed := by
  have := (List.mem_filter.1 hv).2
  exact of_decide_eq_true this

/-- Helper: the completed filtrate is a sublist of the input. -/
theorem mem_of_mem_completed (vs : List AgentVerdict) (v : AgentVerdict)
    (hv : v ∈ vs.filter (fun v => decide (v.status = .completed))) :
    v ∈ vs :=
  (List.mem_filter.1 hv).1

/-- C1: for every verdict set with at least one completed verdict, the
consensus decision follows the ordered spec rule (2 or more completed
blocks give block; exactly one completed block gives proceed-with-changes
regardless of the rest; any completed proceed-with-changes gives
proceed-with-changes; otherwise proceed). -/
theorem consensus_decision_follows_spec_rule (vs : List AgentVerdict)
    (h : (vs.filter (fun v => decide (v.status = .completed))).length ≠ 0) :
    (computeConsensus vs).verdict =
      specDecision
        ((vs.filter (fun v => decide (v.status = .completed))).filter
            (fun v => decide (v.verdict = .block))).length
        ((vs.filter (fun v => decide (v.status = .completed))).filter
            (fun v => decide (v.verdict = .proceed_with_changes))).length := by
  simp only [computeConsensus, specDecision, if_neg h]
  split_ifs <;> simp_all

/-- C1 witness: one completed blocking verdict among three, the other two
completed saying proceed; the overall decision is the spec rule's value. -/
theorem consensus_decision_follows_spec_rule_witness :
    (computeConsensus
      [sampleVerdict .completed 0.9 .block,
       sampleVerdict .completed 0.8 .proceed,
       sampleVerdict .completed 0.7 .proceed]).verdict = specDecision 1 0 := by
  have := consensus_decision_follows_spec_rule
    [sampleVerdict .completed 0.9 .block,
     sampleVerdict .completed 0.8 .proceed,
     sampleVerdict .completed 0.7 .proceed] (by decide)
  simpa using this

/-- C8: when no input verdict has completed status (the empty list
included), the consensus is the degraded result: proceed-with-changes,
confidence exactly 0.2, and exactly one synthetic issue flagging total
agent failure. -/
theorem computeConsensus_degraded (vs : List AgentVerdict)
    (h : ∀ v ∈ vs, v.status ≠ .completed) :
    computeConsensus vs =
      { verdict := .proceed_with_changes,
        confidence := 0.2,
        critical_issues := ["All agents failed or timed out — proceed with extreme caution"],
        recommendations := ["Re-run the protocol or manually review the changes"] }
    ∧ (computeConsensus vs).critical_issues.length = 1 := by
  have hf : vs.filter (fun v => decide (v.status = .completed)) = [] := by
    rw [List.filter_eq_nil_iff]
    intro v hv
    simpa using h v hv
  constructor
  · simp [computeConsensus, hf]
  · simp [computeConsensus, hf]

/-- C8 witness: a timed-out and an errored verdict yield the degraded
consensus with its single synthetic issue. -/
theorem computeConsensus_degraded_witness :
    computeConsensus [sampleVerdict .timeout 0.3 .proceed, sampleVerdict .error 0.3 .proceed] =
      { verdict := .proceed_with_changes,
        confidence := 0.2,
        critical_issues := ["All agents failed or timed out — proceed with extreme caution"],
        recommendations := ["Re-run the protocol or manually review the changes"] }
    ∧ (computeConsensus
        [sampleVerdict .timeout 0.3 .proceed, sampleVerdict .error 0.3 .proceed]).critical_issues.length = 1 :=
  computeConsensus_degraded _ (by decide)

/-- C2 (code evaluated at the failing input): with one completed verdict of
confidence 1 and one timed-out verdict of confidence 0, the computed
consensus confidence is 1 — the timed-out verdict is excluded — while the
spec's weighted mean over every verdict (weight 0.3 for the timed-out one)
gives 0.77; the 0.3-weight term of the source is dead code because the loop
iterates over the completed filtrate only. -/
theorem computeConsensus_drops_noncompleted_weights :
    (computeConsensus
      [sampleVerdict .completed 1 .proceed, sampleVerdict .timeout 0 .proceed]).confidence = 1
    ∧ specConfidence
        [sampleVerdict .completed 1 .proceed, sampleVerdict .timeout 0 .proceed] = 0.77
    ∧ (1 : ℚ) ≠ 0.77 := by
  have hf : List.filter (fun v => decide (v.status = AgentStatus.completed))
      [sampleVerdict .completed 1 .proceed, sampleVerdict .timeout 0 .proceed]
      = [sampleVerdict .completed 1 .proceed] := by
    rw [List.filter_cons_of_pos (by decide), List.filter_cons_of_neg (by decide),
      List.filter_nil]
  refine ⟨?_, ?_, by norm_num⟩
  · simp only [computeConsensus]
    rw [hf]
    simp only [List.foldl_cons, List.foldl_nil, List.length_cons, List.length_nil,
      sampleVerdict, if_pos rfl]
    norm_num [jsRound]
  · simp only [specConfidence, sampleVerdict, List.foldl_cons, List.foldl_nil,
      if_pos rfl, if_neg (show ¬ AgentStatus.timeout = AgentStatus.completed from by decide)]
    norm_num [jsRound]

/-- Helper: in the non-degraded branch, the computed confidence is the
rounded plain mean of the completed verdicts' confidences (every weight in
the loop over the completed filtrate equals 1). -/
theorem computeConsensus_confidence_formula (vs : List AgentVerdict)
    (h : (vs.filter (fun v => decide (v.status = .completed))).length ≠ 0) :
    (computeConsensus vs).confidence =
      ((jsRound ((((vs.filter (fun v => decide (v.status = .completed))).map
            (fun v => v.confidence)).sum
          / ((vs.filter (fun v => decide (v.status = .completed))).length : ℚ)) * 100) : ℚ))
        / 100 := by
  simp only [computeConsensus, if_neg h]
  set l := vs.filter (fun v => decide (v.status = AgentStatus.completed)) with hl
  have hall : ∀ v ∈ l, v.status = .completed := fun v hv =>
    status_of_mem_completed vs v (hl ▸ hv)
  rw [foldl_add_eq_sum (fun v => if v.status = AgentStatus.completed then (1 : ℚ) else 0.3) l,
    foldl_add_eq_sum
      (fun v => v.confidence * (if v.status = AgentStatus.completed then (1 : ℚ) else 0.3)) l]
  have h1 : l.map (fun v => if v.status = AgentStatus.completed then (1 : ℚ) else 0.3)
      = l.map (fun _ => (1 : ℚ)) :=
    List.map_congr_left (fun v hv => by rw [hall v hv]; simp)
  have h2 : l.map (fun v => v.confidence * (if v.status = AgentStatus.completed then (1 : ℚ) else 0.3))
      = l.map (fun v => v.confidence) :=
    List.map_congr_left (fun v hv => by rw [hall v hv]; simp)
  rw [h1, h2, sum_map_ones]
  have hpos : (0 : ℚ) < l.length := by exact_mod_cast Nat.pos_of_ne_zero h
  rw [if_pos (by simpa using hpos)]
  simp

/-- C9 counterexample: a completed verdict carrying confidence 5 (nothing in
the code clamps the extracted confidence) drives the consensus confidence to
5, outside the claimed interval. -/
theorem computeConsensus_confidence_unclamped :
    (computeConsensus [sampleVerdict .completed 5 .proceed]).confidence = 5
    ∧ ¬ ((computeConsensus [sampleVerdict .completed 5 .proceed]).confidence ≤ 1) := by
  have hf : List.filter (fun v => decide (v.status = AgentStatus.completed))
      [sampleVerdict .completed 5 .proceed] = [sampleVerdict .completed 5 .proceed] := by
    rw [List.filter_cons_of_pos (by decide), List.filter_nil]
  have h5 : (computeConsensus [sampleVerdict .completed 5 .proceed]).confidence = 5 := by
    simp only [computeConsensus]
    rw [hf]
    simp only [List.foldl_cons, List.foldl_nil, List.length_cons, List.length_nil,
      sampleVerdict, if_pos rfl]
    norm_num [jsRound]
  exact ⟨h5, by rw [h5]; norm_num⟩

/-- C9 (amended): the consensus confidence is always an integer multiple of
1/100 (2 decimal places), and it lies in [0,1] provided every completed
input verdict's confidence lies in [0,1]; without that precondition the
computation does not clamp. -/
theorem computeConsensus_confidence_bounds (vs : List AgentVerdict)
    (h : ∀ v ∈ vs, v.status = .completed → 0 ≤ v.confidence ∧ v.confidence ≤ 1) :
    0 ≤ (computeConsensus vs).confidence ∧ (computeConsensus vs).confidence ≤ 1
    ∧ ∃ k : ℤ, (computeConsensus vs).confidence = (k : ℚ) / 100 := by
  by_cases h0 : (vs.filter (fun v => decide (v.status = .completed))).length = 0
  · have hdeg : (computeConsensus vs).confidence = 0.2 := by
      simp only [computeConsensus]
      rw [if_pos h0]
    rw [hdeg]
    exact ⟨by norm_num, by norm_num, 20, by norm_num⟩
  · rw [computeConsensus_confidence_formula vs h0]
    set l := vs.filter (fun v => decide (v.status = AgentStatus.completed)) with hl
    have hn : (0 : ℚ) < (l.length : ℚ) := by exact_mod_cast Nat.pos_of_ne_zero h0
    have hS0 : 0 ≤ (l.map (fun v => v.confidence)).sum := by
      apply List.sum_nonneg
      intro x hx
      obtain ⟨v, hv, rfl⟩ := List.mem_map.1 hx
      exact (h v (mem_of_mem_completed vs v (hl ▸ hv))
        (status_of_mem_completed vs v (hl ▸ hv))).1
    have hS1 : (l.map (fun v => v.confidence)).sum ≤ (l.length : ℚ) := by
      calc (l.map (fun v => v.confidence)).sum
          ≤ (l.map (fun _ => (1 : ℚ))).sum := by
            apply List.sum_le_sum
            intro v hv
            exact (h v (mem_of_mem_completed vs v (hl ▸ hv))
              (status_of_mem_completed vs v (hl ▸ hv))).2
        _ = (l.length : ℚ) := sum_map_ones l
    have hm0 : 0 ≤ (l.map (fun v => v.confidence)).sum / (l.length : ℚ) :=
      div_nonneg hS0 hn.le
    have hm1 : (l.map (fun v => v.confidence)).sum / (l.length : ℚ) ≤ 1 :=
      (div_le_one hn).2 hS1
    set x := (l.map (fun v => v.confidence)).sum / (l.length : ℚ) * 100 with hx
    have hx0 : 0 ≤ x := mul_nonneg hm0 (by norm_num)
    have hx1 : x ≤ 100 := by
      calc x ≤ 1 * 100 := mul_le_mul_of_nonneg_right hm1 (by norm_num)
        _ = 100 := by norm_num
    have hk0 : (0 : ℤ) ≤ jsRound x := by
      unfold jsRound
      exact Int.le_floor.2 (by push_cast; linarith)
    have hk1 : jsRound x ≤ 100 := by
      unfold jsRound
      have hlt : ⌊x + 1/2⌋ < 101 := Int.floor_lt.2 (by push_cast; linarith)
      omega
    refine ⟨?_, ?_, ⟨jsRound x, rfl⟩⟩
    · apply div_nonneg _ (by norm_num)
      exact_mod_cast hk0
    · rw [div_le_one (by norm_num)]
      exact_mod_cast hk1

/-- C9 witness: one completed verdict with confidence 0.8 gives a consensus
confidence inside [0,1]. -/
theorem computeConsensus_confidence_bounds_witness :
    0 ≤ (computeConsensus [sampleVerdict .completed 0.8 .proceed]).confidence
    ∧ (computeConsensus [sampleVerdict .completed 0.8 .proceed]).confidence ≤ 1 := by
  have hb := computeConsensus_confidence_bounds [sampleVerdict .completed 0.8 .proceed] (by
    intro v hv hst
    simp only [List.mem_singleton] at hv
    subst hv
    norm_num [sampleVerdict])
  exact ⟨hb.1, hb.2.1⟩

/-- C3: for every availability set the resolver returns exactly 3
assignments, exactly one per role in the fixed order, as a function of the
availability set alone (deterministic pure function), and the
devils-advocate role receives a subprocess (external) backend whenever at
least one external CLI is available. -/
theorem resolveAgents_assignment_cover (config : RuntimeConfig) :
    (resolveAgents config).length = 3
    ∧ (resolveAgents config).map (fun a => a.role)
        = [.devils_advocate, .architecture_critic, .pragmatist]
    ∧ (∀ config' : RuntimeConfig,
        config.available_agents = config'.available_agents →
        resolveAgents config = resolveAgents config')
    ∧ ((config.available_agents .codex || config.available_agents .gemini) = true →
        ∀ a ∈ resolveAgents config, a.role = .devils_advocate → a.via = .subprocess) := by
  refine ⟨?_, ?_, ?_, ?_⟩
  · cases hc : config.available_agents ExternalAgent.codex <;>
      cases hg : config.available_agents ExternalAgent.gemini <;>
      simp [resolveAgents, hc, hg]
  · cases hc : config.available_agents ExternalAgent.codex <;>
      cases hg : config.available_agents ExternalAgent.gemini <;>
      simp [resolveAgents, hc, hg]
  · intro config' he
    unfold resolveAgents
    rw [he]
  · intro hext a ha hrole
    cases hc : config.available_agents ExternalAgent.codex <;>
      cases hg : config.available_agents ExternalAgent.gemini
    · rw [hc, hg] at hext
      simp at hext
    all_goals
      simp only [resolveAgents, hc, hg, Bool.and_self, Bool.and_false, Bool.false_and,
        Bool.and_true, Bool.true_and, if_true, if_false, Bool.false_eq_true,
        List.mem_cons, List.not_mem_nil, or_false] at ha
      rcases ha with ha | ha | ha <;> subst ha <;> first | rfl | simp at hrole

/-- C3 witness: with both external CLIs available the resolver yields 3
assignments, is unchanged under a different timeout budget, and gives the
devils-advocate role the codex subprocess backend. -/
theorem resolveAgents_assignment_cover_witness :
    (resolveAgents cfgBoth).length = 3
    ∧ resolveAgents cfgBoth = resolveAgents cfgBothSlow
    ∧ daCodex.via = .subprocess := by
  have hb := resolveAgents_assignment_cover cfgBoth
  refine ⟨hb.1, hb.2.2.1 cfgBothSlow rfl, ?_⟩
  exact hb.2.2.2 rfl daCodex (by decide) rfl

/-- C10: for every availability set the pragmatist role is assigned the
delegated claude backend (never a subprocess), and when both codex and
gemini are available the fixed mapping gives codex to devils-advocate and
gemini to architecture-critic. -/
theorem resolveAgents_pragmatist_invariant (config : RuntimeConfig) :
    (∀ a ∈ resolveAgents config, a.role = .pragmatist →
        a.engine = .claude ∧ a.via = .subagent_prompt)
    ∧ (config.available_agents .codex = true → config.available_agents .gemini = true →
        ∀ a ∈ resolveAgents config,
          (a.role = .devils_advocate → a.engine = .codex)
          ∧ (a.role = .architecture_critic → a.engine = .gemini)) := by
  constructor
  · intro a ha hrole
    cases hc : config.available_agents ExternalAgent.codex <;>
      cases hg : config.available_agents ExternalAgent.gemini <;>
      [skip; skip; skip; skip] <;>
      simp only [resolveAgents, hc, hg, Bool.and_self, Bool.and_false, Bool.false_and,
        Bool.and_true, Bool.true_and, if_true, if_false, Bool.false_eq_true,
        List.mem_cons, List.not_mem_nil, or_false] at ha <;>
      (rcases ha with ha | ha | ha <;> subst ha <;>
        first | exact ⟨rfl, rfl⟩ | simp at hrole)
  · intro hc hg a ha
    simp only [resolveAgents, hc, hg, Bool.and_self, if_true,
      List.mem_cons, List.not_mem_nil, or_false] at ha
    rcases ha with ha | ha | ha <;> subst ha <;>
      exact ⟨fun h => by first | rfl | simp at h, fun h => by first | rfl | simp at h⟩

/-- C10 witness: with both external CLIs available, the pragmatist
assignment is the delegated claude backend and the devils-advocate
assignment runs on codex. -/
theorem resolveAgents_pragmatist_invariant_witness :
    ({ role := .pragmatist, engine := .claude, model := MODELS .claude,
        via := .subagent_prompt } : AgentAssignment).engine = .claude
    ∧ daCodex.engine = .codex := by
  have hb := resolveAgents_pragmatist_invariant cfgBoth
  refine ⟨(hb.1 _ (by decide) rfl).1, (hb.2 rfl rfl daCodex (by decide)).1 rfl⟩

/-- C4: the normalizer is total — for every parse oracle and every input
string the result is either a successfully parsed payload (stage 1 on the
cleaned text or stage 2 on the brace span) or the synthesized fallback
payload; no parse failure ever escapes to the caller. -/
theorem parseAgentOutput_never_raises (jsonParse : String → Option Json)
    (output : String) (role : AgentRole) :
    (∃ parsed, jsonParse (cleanOutput output) = some parsed
        ∧ parseAgentOutput jsonParse output role = parsed)
    ∨ (∃ sub parsed, braceSpan (cleanOutput output) = some sub
        ∧ jsonParse sub = some parsed
        ∧ parseAgentOutput jsonParse output role = parsed)
    ∨ parseAgentOutput jsonParse output role = fallbackPayload role output := by
  cases h1 : jsonParse (cleanOutput output) with
  | some j =>
    exact Or.inl ⟨j, rfl, by simp [parseAgentOutput, h1]⟩
  | none =>
    cases h2 : braceSpan (cleanOutput output) with
    | some sub =>
      cases h3 : jsonParse sub with
      | some j =>
        exact Or.inr (Or.inl ⟨sub, j, rfl, h3,
          by simp [parseAgentOutput, h1, h2, h3]⟩)
      | none =>
        exact Or.inr (Or.inr (by simp [parseAgentOutput, h1, h2, h3]))
    | none =>
      exact Or.inr (Or.inr (by simp [parseAgentOutput, h1, h2]))

/-- C5 counterexample: stage 2 does not extract the first balanced
brace-delimited substring.  On this input the balanced substring is valid
JSON (the oracle agrees with `JSON.parse` on every string involved), yet the
code passes the greedy first-brace-to-last-brace span to the parser, fails,
and synthesizes the fallback instead of returning the parsed object. -/
theorem parseAgentOutput_not_balanced_extraction :
    pEx (cleanOutput sEx) = none
    ∧ firstBalancedBraces (cleanOutput sEx) = some "\x7b\"a\": 1\x7d"
    ∧ pEx "\x7b\"a\": 1\x7d" = some (Json.obj [("a", Json.num 1)])
    ∧ braceSpan (cleanOutput sEx) = some "\x7b\"a\": 1\x7d junk \x7d"
    ∧ pEx "\x7b\"a\": 1\x7d junk \x7d" = none
    ∧ parseAgentOutput pEx sEx .devils_advocate = fallbackPayload .devils_advocate sEx
    ∧ parseAgentOutput pEx sEx .devils_advocate ≠ Json.obj [("a", Json.num 1)] := by
  refine ⟨rfl, by decide, rfl, by decide, rfl, rfl, ?_⟩
  intro h
  rw [show parseAgentOutput pEx sEx .devils_advocate
      = fallbackPayload .devils_advocate sEx from rfl] at h
  have h4 := congrArg (fun j => getField j "verdict") h
  simp only [fallbackPayload, getField, List.lookup] at h4
  simp at h4

/-- C5 (amended): the three recovery stages run in the fixed order, but
stage 2 parses the greedy span from the first opening brace to the last
closing brace of the cleaned text (the regex match), not the first balanced
brace-delimited substring; a later stage runs only if every earlier stage
failed, and the stage-3 fallback carries the default proceed-with-changes
decision, confidence 0.4, and a note embedding at most the first 500
characters of the raw text. -/
theorem parseAgentOutput_stage_order (jsonParse : String → Option Json)
    (output : String) (role : AgentRole) :
    (∀ parsed, jsonParse (cleanOutput output) = some parsed →
        parseAgentOutput jsonParse output role = parsed)
    ∧ (∀ sub, jsonParse (cleanOutput output) = none →
        braceSpan (cleanOutput output) = some sub →
        (∀ parsed, jsonParse sub = some parsed →
            parseAgentOutput jsonParse output role = parsed)
        ∧ (jsonParse sub = none →
            parseAgentOutput jsonParse output role = fallbackPayload role output))
    ∧ (jsonParse (cleanOutput output) = none →
        braceSpan (cleanOutput output) = none →
        parseAgentOutput jsonParse output role = fallbackPayload role output)
    ∧ getField (fallbackPayload role output) "verdict" = some (.str "proceed_with_changes")
    ∧ getField (fallbackPayload role output) "confidence" = some (.num 0.4)
    ∧ getField (fallbackPayload role output) "reasoning"
        = some (.str ("[" ++ roleLabel role ++ "] Raw output (could not parse as JSON): "
            ++ String.mk (output.toList.take 500)))
    ∧ (output.toList.take 500).length ≤ 500 := by
  refine ⟨?_, ?_, ?_, rfl, rfl, rfl, ?_⟩
  · intro parsed h1
    simp [parseAgentOutput, h1]
  · intro sub h1 h2
    constructor
    · intro parsed h3
      simp [parseAgentOutput, h1, h2, h3]
    · intro h3
      simp [parseAgentOutput, h1, h2, h3]
  · intro h1 h2
    simp [parseAgentOutput, h1, h2]
  · simp [List.length_take]

/-- C5 witness: on plain prose with a failing oracle, both earlier stages
fail and the normalizer returns the fallback payload with the default
decision. -/
theorem parseAgentOutput_stage_order_witness :
    parseAgentOutput pNone "hello" .pragmatist = fallbackPayload .pragmatist "hello"
    ∧ getField (fallbackPayload .pragmatist "hello") "verdict"
        = some (.str "proceed_with_changes") := by
  have hs := parseAgentOutput_stage_order pNone "hello" .pragmatist
  exact ⟨hs.2.2.1 rfl (by decide), hs.2.2.2.1⟩

/-- C6 counterexample: the extraction default for a missing confidence is
0.5, but the total-parse-failure fallback payload carries confidence 0.4 —
the two "defaults" are not the same value, contrary to the claim. -/
theorem fallback_confidence_mismatch :
    extractConfidence (Json.obj []) = 0.5
    ∧ extractConfidence (fallbackPayload .devils_advocate "unparseable") = 0.4
    ∧ (0.4 : ℚ) ≠ 0.5 :=
  ⟨rfl, rfl, by norm_num⟩

/-- C6 (amended): a missing or wrong-typed decision field is replaced by
proceed-with-changes and a missing or wrong-typed confidence field by 0.5;
the fallback payload carries the same decision default
(proceed-with-changes) but a different confidence value, 0.4. -/
theorem extraction_defaults (j : Json) (role : AgentRole) (s : String) :
    (getField j "verdict" = none → extractVerdict j = .proceed_with_changes)
    ∧ (∀ u, getField j "verdict" = some (.str u) → isVerdictStr u = false →
        extractVerdict j = .proceed_with_changes)
    ∧ (∀ t, getField j "verdict" = some t → (∀ u, t ≠ .str u) →
        extractVerdict j = .proceed_with_changes)
    ∧ (getField j "confidence" = none → extractConfidence j = 0.5)
    ∧ (∀ t, getField j "confidence" = some t → (∀ q, t ≠ .num q) →
        extractConfidence j = 0.5)
    ∧ extractVerdict (fallbackPayload role s) = .proceed_with_changes
    ∧ extractConfidence (fallbackPayload role s) = 0.4 := by
  refine ⟨?_, ?_, ?_, ?_, ?_, rfl, rfl⟩
  · intro h
    simp [extractVerdict, h]
  · intro u h hu
    simp only [isVerdictStr, Bool.or_eq_false_iff, beq_eq_false_iff_ne, ne_eq] at hu
    simp [extractVerdict, h, hu.1.1, hu.1.2, hu.2]
  · intro t h ht
    cases t <;> first | exact absurd rfl (ht _) | simp [extractVerdict, h]
  · intro h
    simp [extractConfidence, h]
  · intro t h ht
    cases t <;> first | exact absurd rfl (ht _) | simp [extractConfidence, h]

/-- C6 witness: on an empty payload both defaults apply; on a fallback
payload the decision agrees with the default and the confidence is 0.4. -/
theorem extraction_defaults_witness :
    extractVerdict (Json.obj []) = .proceed_with_changes
    ∧ extractConfidence (Json.obj []) = 0.5
    ∧ extractVerdict (fallbackPayload .pragmatist "zzz") = .proceed_with_changes
    ∧ extractConfidence (fallbackPayload .pragmatist "zzz") = 0.4 := by
  have he := extraction_defaults (Json.obj []) .pragmatist "zzz"
  exact ⟨he.1 rfl, he.2.2.2.1 rfl, he.2.2.2.2.2.1, he.2.2.2.2.2.2⟩

/-- C7: failed invocations are contained.  For any supported external
engine, a timeout yields an ok verdict with status timeout, the default
proceed-with-changes decision, the fixed 0.3 fallback confidence and no
structured findings; any other execution failure yields the same defaults
with status error and the failure message in the error text.  At the
executeAgents join, every subprocess assignment yields exactly one verdict
whatever its outcome (no exception reaches the caller), and the i-th
verdict depends only on the i-th assignment's own outcome — a failure in
one invocation cannot change a sibling's verdict. -/
theorem executeAgents_failure_containment (jsonParse : String → Option Json)
    (buildP : AgentRole → ReviewInput → String)
    (assignments : List AgentAssignment) (input : ReviewInput) (config : RuntimeConfig)
    (run : AgentAssignment → ExecOutcome) (duration : AgentAssignment → ℕ) :
    (∀ a : AgentAssignment, a.engine = .codex ∨ a.engine = .gemini →
      invokeExternal jsonParse a config .timedOut (duration a)
        = .ok { role := a.role, engine := a.engine, model := a.model,
                verdict := .proceed_with_changes, confidence := 0.3, raw_output := none,
                duration_ms := duration a, status := .timeout,
                error := some ("Agent timed out after "
                  ++ toString config.timeout_seconds ++ "s") }
      ∧ ∀ msg, invokeExternal jsonParse a config (.failed msg) (duration a)
          = .ok { role := a.role, engine := a.engine, model := a.model,
                  verdict := .proceed_with_changes, confidence := 0.3, raw_output := none,
                  duration_ms := duration a, status := .error,
                  error := some ("Agent failed: " ++ msg) })
    ∧ (executeAgents jsonParse buildP assignments input config run duration).1.length
        = (assignments.filter (fun a => decide (a.via = .subprocess))).length
    ∧ (∀ (run' : AgentAssignment → ExecOutcome) (i : ℕ) (a : AgentAssignment),
        (assignments.filter (fun a => decide (a.via = .subprocess)))[i]? = some a →
        run a = run' a →
        (executeAgents jsonParse buildP assignments input config run duration).1[i]?
          = (executeAgents jsonParse buildP assignments input config run' duration).1[i]?) := by
  refine ⟨?_, ?_, ?_⟩
  · intro a ha
    rcases ha with h | h <;> exact ⟨by simp [invokeExternal, h], fun msg => by simp [invokeExternal, h]⟩
  · simp [executeAgents]
  · intro run' i a hia hagree
    simp [executeAgents, List.getElem?_map, hia, hagree]

/-- C7 witness: a timed-out codex invocation under the default
configuration produces the synthesized timeout verdict; the verdict list
covers both subprocess assignments; and replacing the sibling's outcome
leaves the first verdict unchanged. -/
theorem executeAgents_failure_containment_witness :
    invokeExternal pNone daCodex cfgBoth .timedOut 0
      = .ok { role := daCodex.role, engine := daCodex.engine, model := daCodex.model,
              verdict := .proceed_with_changes, confidence := 0.3, raw_output := none,
              duration_ms := 0, status := .timeout,
              error := some ("Agent timed out after "
                ++ toString cfgBoth.timeout_seconds ++ "s") }
    ∧ (executeAgents pNone (fun _ _ => "p") (resolveAgents cfgBoth) sampleInput cfgBoth
        (fun _ => .timedOut) (fun _ => 0)).1.length
      = ((resolveAgents cfgBoth).filter (fun a => decide (a.via = .subprocess))).length
    ∧ (executeAgents pNone (fun _ _ => "p") (resolveAgents cfgBoth) sampleInput cfgBoth
        (fun _ => .timedOut) (fun _ => 0)).1[0]?
      = (executeAgents pNone (fun _ _ => "p") (resolveAgents cfgBoth) sampleInput cfgBoth
          (fun a => if a.role = .devils_advocate then .timedOut else .failed "x")
          (fun _ => 0)).1[0]? := by
  have hx := executeAgents_failure_containment pNone (fun _ _ => "p")
    (resolveAgents cfgBoth) sampleInput cfgBoth (fun _ => .timedOut) (fun _ => 0)
  exact ⟨(hx.1 daCodex (Or.inl rfl)).1, hx.2.1,
    hx.2.2 (fun a => if a.role = .devils_advocate then .timedOut else .failed "x")
      0 daCodex (by decide) rfl⟩
